import Mathlib

set_option maxHeartbeats 1000000

namespace CustomPact

/-!
Shallow embedding of the registration-number allocator implemented in
`src/landing/models.py`, method `Registration.save`:

```
def save(self, *args, **kwargs):
    if not self.registration_number:
        last_reg = Registration.objects.order_by("-created_at").first()
        if last_reg and last_reg.registration_number:
            try:
                last_num = int(last_reg.registration_number.split("-")[-1])
                new_num = last_num + 1
            except:
                new_num = 1
        else:
            new_num = 1
        self.registration_number = f"TCP2025-{new_num:04d}"
    super().save(*args, **kwargs)
```

The database of persisted registrations is represented as a `List Registration`
ordered by `created_at` descending (newest first), which is exactly the view
produced by `order_by("-created_at")`; every creation inserts at the head with
a strictly larger `created_at`.
-/

/-- Decimal-digit test for a character (ASCII codes 48..57, i.e. 0 to 9). -/
def isDigitChar (c : Char) : Bool := 48 ≤ c.toNat && c.toNat ≤ 57

/-- ASCII whitespace as stripped by Python `int` before parsing
(space, tab, newline, carriage return, vertical tab, form feed). -/
def isSpaceChar (c : Char) : Bool :=
  c.toNat = 32 || c.toNat = 9 || c.toNat = 10 || c.toNat = 13 || c.toNat = 11 || c.toNat = 12

/-- Numeric value of a digit string read most-significant digit first. -/
def digitsVal (l : List Char) : Nat := l.foldl (fun a c => 10 * a + (c.toNat - 48)) 0

/-- Remove leading and trailing whitespace characters. -/
def stripEnds (l : List Char) : List Char :=
  ((l.dropWhile isSpaceChar).reverse.dropWhile isSpaceChar).reverse

/-- Parse an unsigned run of decimal digits; fails on an empty list or on any
non-digit character. -/
def parseDigits (l : List Char) : Option Nat :=
  if l.isEmpty then none
  else if l.all isDigitChar then some (digitsVal l) else none

/-- Model of Python `int(s)` on the character list of `s`: surrounding
whitespace is stripped, an optional single sign is accepted, and the remainder
must be one or more decimal digits; `none` models the `ValueError` caught by
the bare `except:` in the source. (Underscore digit separators and non-ASCII
digits accepted by CPython are not modelled; no behaviour relevant to the
claims depends on them.) -/
def pyIntChars (l : List Char) : Option Int :=
  match stripEnds l with
  | [] => none
  | c :: rest =>
    if c = '+' then (parseDigits rest).map Int.ofNat
    else if c = '-' then (parseDigits rest).map (fun n => -(Int.ofNat n))
    else (parseDigits (c :: rest)).map Int.ofNat

/-- Model of Python `int(s)`. -/
def pyInt (s : String) : Option Int := pyIntChars s.data

/-- The characters after the last `'-'`, or the whole list when it contains
no `'-'`. -/
def lastSegmentChars (l : List Char) : List Char :=
  (l.reverse.takeWhile (fun c => c != '-')).reverse

/-- Model of Python `s.split("-")[-1]`: the substring after the last `'-'`,
or all of `s` when it contains no `'-'`. -/
def lastSegment (s : String) : String :=
  String.mk (lastSegmentChars s.data)

/-- Fuel-driven accumulator loop producing the decimal digits of `n` in front
of `acc`; any `fuel > n` is sufficient. -/
def natDigitsAux : Nat → Nat → List Char → List Char
  | 0, _, acc => acc
  | fuel + 1, n, acc =>
    if n < 10 then Nat.digitChar n :: acc
    else natDigitsAux fuel (n / 10) (Nat.digitChar (n % 10) :: acc)

/-- Decimal digits of `n`, most significant first (`natDigits 0 = ['0']`). -/
def natDigits (n : Nat) : List Char := natDigitsAux (n + 1) n []

/-- Model of Python `f"{new_num:04d}"`: the decimal rendering of the integer,
zero-padded on the left to a minimum total width of 4 (the sign, when present,
counts towards the width); wider values are rendered in full. -/
def pyFormat04 (n : Int) : String :=
  if n < 0 then
    String.mk ('-' :: (List.replicate (3 - (natDigits n.natAbs).length) '0' ++ natDigits n.natAbs))
  else
    String.mk (List.replicate (4 - (natDigits n.toNat).length) '0' ++ natDigits n.toNat)

/-- A persisted registration record, reduced to the two fields the allocator
reads: `registration_number` (empty string models Django's blank value) and
`created_at` (an abstract strictly-increasing timestamp). All other business
fields are opaque to the allocator. -/
structure Registration where
  registration_number : String
  created_at : Nat
deriving Repr, DecidableEq

/-- Model of `Registration.objects.order_by("-created_at").first()`: the
database list is kept newest-first, so `first()` is the head. Note that the
query has no filter on `registration_number`. -/
def firstByCreatedDesc (db : List Registration) : Option Registration := db.head?

/-- The suffix computation of `Registration.save`: read the most recently
created record; if it exists and its `registration_number` is non-empty, parse
the segment after the last `'-'` and add 1, falling back to 1 if parsing fails;
otherwise 1. -/
def nextNum (db : List Registration) : Int :=
  match firstByCreatedDesc db with
  | some last_reg =>
    if last_reg.registration_number ≠ "" then
      match pyInt (lastSegment last_reg.registration_number) with
      | some last_num => last_num + 1
      | none => 1
    else 1
  | none => 1

/-- The identifier assigned to a new record:
`self.registration_number = f"TCP2025-{new_num:04d}"`. -/
def newRegistrationNumber (db : List Registration) : String :=
  "TCP2025-" ++ pyFormat04 (nextNum db)

/-- The `if not self.registration_number:` block of `Registration.save`: a
record with an empty number receives a freshly computed one; a record whose
number is already set is left entirely unchanged. -/
def assignNumber (db : List Registration) (r : Registration) : Registration :=
  if r.registration_number = "" then
    { r with registration_number := newRegistrationNumber db }
  else r

/-- `Registration.save` on a new record: assign the number from the current
database state, then persist (insert newest-first). -/
def save (db : List Registration) (r : Registration) : List Registration :=
  assignNumber db r :: db

/-- `n` sequential registration creations starting from an empty database,
the `i`-th creation carrying `created_at = i` (strictly increasing). -/
def createMany : Nat → List Registration
  | 0 => []
  | n + 1 => save (createMany n) { registration_number := "", created_at := n + 1 }

/-- Modelled from the spec (for comparison only): the read step as the spec's
sections 4.1 and 6 describe it, "the most recently created record that already
has a non-empty identifier field, or none if no such record exists" — i.e. a
read that skips newer records whose identifier is empty. The source's actual
read (`firstByCreatedDesc`) carries no such filter; this definition exists
solely to be compared against the source's behaviour. -/
def specLatestWithIdentifier (db : List Registration) : Option Registration :=
  db.find? (fun r => !(r.registration_number == ""))

/-- The numeric suffix of a record's identifier, as the allocator itself would
parse it: the segment after the last `'-'`, read as an integer. -/
def numericSuffix (r : Registration) : Option Int :=
  pyInt (lastSegment r.registration_number)

/-- An operation on the registration table: `create t` runs `Registration.save`
on a fresh record (empty number, `created_at = t`); `delete t` removes the
record(s) with `created_at = t` (a `QuerySet.delete`), touching nothing else. -/
inductive Op where
  | create (t : Nat)
  | delete (t : Nat)
deriving Repr, DecidableEq

/-- One step of the operational model, threading the database plus a log of
`(created_at, assigned identifier)` pairs, one entry per `create`. -/
def applyOp : List Registration × List (Nat × String) → Op → List Registration × List (Nat × String)
  | (db, log), Op.create t =>
    let r := assignNumber db { registration_number := "", created_at := t }
    (r :: db, log ++ [(t, r.registration_number)])
  | (db, log), Op.delete t => (db.filter (fun r => r.created_at ≠ t), log)

/-- Run a sequence of operations from the empty database, returning the final
database and the assignment log. -/
def runOps (ops : List Op) : List Registration × List (Nat × String) :=
  ops.foldl applyOp ([], [])

/-- The allocation computation of `Registration.save` viewed as a state
transformer: it queries the current database and computes the candidate
suffix; the block performs no write before `super().save`, so the state
component is returned untouched. -/
def allocStep (db : List Registration) : Int × List Registration :=
  (nextNum db, db)

/-- Shared state seen by two concurrent registration submissions A and B: the
database plus each transaction's read snapshot (the result of its
`order_by("-created_at").first()` query, `none` before the read happened). -/
structure TxnState where
  db : List Registration
  snapA : Option (List Registration)
  snapB : Option (List Registration)
deriving Repr, DecidableEq

/-- Events of the two-transaction interleaving model: each transaction first
reads the table, then writes its new record computed from its own snapshot. -/
inductive Ev where
  | readA
  | readB
  | writeA (t : Nat)
  | writeB (t : Nat)
deriving Repr, DecidableEq

/-- Identifier a transaction computes from its read snapshot (the
read-then-compute of `Registration.save`); a write without a prior read is
not exercised by any schedule considered here and yields the empty string. -/
def numberFromSnap : Option (List Registration) → String
  | some db => newRegistrationNumber db
  | none => ""

/-- Interleaving semantics: reads capture the current table into the
transaction's snapshot; writes insert a record whose identifier was computed
from that snapshot, exactly as `Registration.save` does. -/
def stepEv (s : TxnState) (e : Ev) : TxnState :=
  match e with
  | Ev.readA => { s with snapA := some s.db }
  | Ev.readB => { s with snapB := some s.db }
  | Ev.writeA t =>
    { s with db := { registration_number := numberFromSnap s.snapA, created_at := t } :: s.db }
  | Ev.writeB t =>
    { s with db := { registration_number := numberFromSnap s.snapB, created_at := t } :: s.db }

/-- Run an interleaving schedule from an initial table, with no reads yet
performed. -/
def runSched (init : List Registration) (sched : List Ev) : TxnState :=
  sched.foldl stepEv { db := init, snapA := none, snapB := none }

/-! ### Arithmetic facts about digit strings -/

theorem string_data_append (s t : String) : (s ++ t).data = s.data ++ t.data := rfl

theorem string_length_data (s : String) : s.length = s.data.length := rfl

theorem foldl_digit_step (l : List Char) : ∀ a : Nat,
    List.foldl (fun a c => 10 * a + (c.toNat - 48)) a l = a * 10 ^ l.length + digitsVal l := by
  induction l with
  | nil => intro a; simp [digitsVal]
  | cons c l ih =>
    intro a
    simp only [digitsVal, List.foldl_cons, List.length_cons]
    rw [ih, ih, pow_succ]
    ring

theorem digitsVal_replicate_zero_append (z : Nat) (l : List Char) :
    digitsVal (List.replicate z '0' ++ l) = digitsVal l := by
  induction z with
  | zero => rfl
  | succ z ih =>
    have h0 : (10 * 0 + ('0'.toNat - 48)) = 0 := by decide
    simp only [List.replicate_succ, List.cons_append, digitsVal, List.foldl_cons, h0]
    simpa only [digitsVal] using ih

theorem digitChar_isDigit (m : Nat) (h : m < 10) : isDigitChar (Nat.digitChar m) = true := by
  interval_cases m <;> decide

theorem digitChar_toNat (m : Nat) (h : m < 10) : (Nat.digitChar m).toNat = 48 + m := by
  interval_cases m <;> decide

theorem natDigitsAux_spec : ∀ (fuel n : Nat), n < fuel → ∀ acc : List Char,
    (∀ c ∈ natDigitsAux fuel n acc, isDigitChar c = true ∨ c ∈ acc) ∧
    natDigitsAux fuel n acc ≠ [] ∧
    digitsVal (natDigitsAux fuel n acc) = n * 10 ^ acc.length + digitsVal acc := by
  intro fuel
  induction fuel with
  | zero => intro n h; exact absurd h (Nat.not_lt_zero n)
  | succ fuel ih =>
    intro n hn acc
    by_cases h10 : n < 10
    · simp only [natDigitsAux, if_pos h10]
      refine ⟨?_, by simp, ?_⟩
      · intro c hc
        rcases List.mem_cons.mp hc with h | h
        · exact Or.inl (h ▸ digitChar_isDigit n h10)
        · exact Or.inr h
      · simp only [digitsVal, List.foldl_cons]
        rw [foldl_digit_step]
        have hv : 10 * 0 + ((Nat.digitChar n).toNat - 48) = n := by
          rw [digitChar_toNat n h10]; omega
        rw [hv]
        simp only [digitsVal]
    · simp only [natDigitsAux, if_neg h10]
      have hlt : n / 10 < fuel := by omega
      obtain ⟨hmem, hne, hval⟩ := ih (n / 10) hlt (Nat.digitChar (n % 10) :: acc)
      refine ⟨?_, hne, ?_⟩
      · intro c hc
        rcases hmem c hc with h | h
        · exact Or.inl h
        · rcases List.mem_cons.mp h with h | h
          · exact Or.inl (h ▸ digitChar_isDigit _ (by omega))
          · exact Or.inr h
      · rw [hval]
        simp only [digitsVal, List.foldl_cons, List.length_cons]
        rw [foldl_digit_step]
        have hd : 10 * 0 + ((Nat.digitChar (n % 10)).toNat - 48) = n % 10 := by
          rw [digitChar_toNat _ (by omega)]; omega
        rw [hd, pow_succ]
        set q := n / 10 with hq
        set r := n % 10 with hr
        have hqr : n = 10 * q + r := by omega
        rw [hqr]
        simp only [digitsVal]
        ring

theorem natDigits_digits (n : Nat) : ∀ c ∈ natDigits n, isDigitChar c = true := by
  intro c hc
  rcases (natDigitsAux_spec (n + 1) n (Nat.lt_succ_self n) []).1 c hc with h | h
  · exact h
  · simp at h

theorem natDigits_ne_nil (n : Nat) : natDigits n ≠ [] :=
  (natDigitsAux_spec (n + 1) n (Nat.lt_succ_self n) []).2.1

theorem digitsVal_natDigits (n : Nat) : digitsVal (natDigits n) = n := by
  have h := (natDigitsAux_spec (n + 1) n (Nat.lt_succ_self n) []).2.2
  simpa [natDigits, digitsVal] using h

/-! ### Facts about character classification and parsing -/

theorem isDigitChar_bounds (c : Char) (h : isDigitChar c = true) :
    48 ≤ c.toNat ∧ c.toNat ≤ 57 := by
  simpa [isDigitChar] using h

theorem isDigitChar_not_space (c : Char) (h : isDigitChar c = true) :
    isSpaceChar c = false := by
  obtain ⟨h1, h2⟩ := isDigitChar_bounds c h
  simp only [isSpaceChar, Bool.or_eq_false_iff, decide_eq_false_iff_not]
  omega

theorem isDigitChar_ne_plus (c : Char) (h : isDigitChar c = true) : c ≠ '+' := by
  intro he
  obtain ⟨h1, _⟩ := isDigitChar_bounds c h
  rw [he] at h1
  exact absurd h1 (by decide)

theorem isDigitChar_ne_dash (c : Char) (h : isDigitChar c = true) : c ≠ '-' := by
  intro he
  obtain ⟨h1, _⟩ := isDigitChar_bounds c h
  rw [he] at h1
  exact absurd h1 (by decide)

theorem isDigitChar_bne_dash (c : Char) (h : isDigitChar c = true) : (c != '-') = true :=
  bne_iff_ne.mpr (isDigitChar_ne_dash c h)

theorem takeWhile_append_all (p : Char → Bool) :
    ∀ (a b : List Char), (∀ c ∈ a, p c = true) →
      List.takeWhile p (a ++ b) = a ++ List.takeWhile p b := by
  intro a
  induction a with
  | nil => intro b _; simp
  | cons c a ih =>
    intro b h
    have hc : p c = true := h c (List.mem_cons_self c a)
    simp [List.takeWhile_cons, hc, ih b (fun x hx => h x (List.mem_cons_of_mem c hx))]

theorem dropWhile_all_false (p : Char → Bool) (l : List Char)
    (h : ∀ c ∈ l, p c = false) : List.dropWhile p l = l := by
  cases l with
  | nil => rfl
  | cons c l => simp [List.dropWhile_cons, h c (List.mem_cons_self c l)]

theorem stripEnds_eq_self (l : List Char) (h : ∀ c ∈ l, isSpaceChar c = false) :
    stripEnds l = l := by
  unfold stripEnds
  rw [dropWhile_all_false _ _ h,
    dropWhile_all_false _ _ (fun c hc => h c (List.mem_reverse.mp hc)),
    List.reverse_reverse]

theorem mem_stripEnds (l : List Char) (c : Char) (h : c ∈ stripEnds l) : c ∈ l := by
  unfold stripEnds at h
  rw [List.mem_reverse] at h
  have h1 : c ∈ (l.dropWhile isSpaceChar).reverse := (List.dropWhile_sublist _).subset h
  rw [List.mem_reverse] at h1
  exact (List.dropWhile_sublist _).subset h1

theorem pyIntChars_all_digits : ∀ (l : List Char), l ≠ [] →
    (∀ c ∈ l, isDigitChar c = true) →
    pyIntChars l = some (Int.ofNat (digitsVal l)) := by
  intro l hne hd
  have hs : stripEnds l = l :=
    stripEnds_eq_self l (fun c hc => isDigitChar_not_space c (hd c hc))
  cases l with
  | nil => exact absurd rfl hne
  | cons c rest =>
    have hc := hd c (List.mem_cons_self c rest)
    have hall : (c :: rest).all isDigitChar = true := List.all_eq_true.mpr hd
    unfold pyIntChars
    rw [hs]
    simp [isDigitChar_ne_plus c hc, isDigitChar_ne_dash c hc, parseDigits, hall]

theorem lastSegmentChars_no_dash (l : List Char) :
    ∀ c ∈ lastSegmentChars l, (c != '-') = true := by
  intro c hc
  unfold lastSegmentChars at hc
  rw [List.mem_reverse] at hc
  have h2 := List.mem_takeWhile_imp hc
  simpa using h2

theorem pyIntChars_nonneg_of_no_dash (l : List Char)
    (hnd : ∀ c ∈ l, (c != '-') = true) (k : Int)
    (h : pyIntChars l = some k) : 0 ≤ k := by
  unfold pyIntChars at h
  cases hE : stripEnds l with
  | nil => rw [hE] at h; simp at h
  | cons c rest =>
    rw [hE] at h
    have h2 : (if c = '+' then (parseDigits rest).map Int.ofNat
        else if c = '-' then (parseDigits rest).map (fun n => -(Int.ofNat n))
        else (parseDigits (c :: rest)).map Int.ofNat) = some k := h
    by_cases hp : c = '+'
    · rw [if_pos hp] at h2
      obtain ⟨m, _, hk⟩ := Option.map_eq_some'.mp h2
      rw [← hk]
      exact Int.ofNat_nonneg m
    · rw [if_neg hp] at h2
      by_cases hm : c = '-'
      · exfalso
        have hcl : c ∈ l := mem_stripEnds l c (by rw [hE]; exact List.mem_cons_self c rest)
        have hb := hnd c hcl
        rw [hm] at hb
        simp at hb
      · rw [if_neg hm] at h2
        obtain ⟨m, _, hk⟩ := Option.map_eq_some'.mp h2
        rw [← hk]
        exact Int.ofNat_nonneg m

theorem pyInt_lastSegment_eq (s : String) :
    pyInt (lastSegment s) = pyIntChars (lastSegmentChars s.data) := rfl

/-! ### The round trip: formatted identifiers parse back to their suffix -/

theorem pyFormat04_ofNat_data (k : Nat) :
    (pyFormat04 (Int.ofNat k)).data =
      List.replicate (4 - (natDigits k).length) '0' ++ natDigits k := by
  unfold pyFormat04
  split
  · rename_i hlt
    exact absurd hlt (Int.not_lt.mpr (Int.ofNat_nonneg k))
  · have ht : (Int.ofNat k).toNat = k := rfl
    rw [ht]

theorem pyInt_lastSegment_roundtrip (k : Nat) :
    pyInt (lastSegment ("TCP2025-" ++ pyFormat04 (Int.ofNat k))) = some (Int.ofNat k) := by
  have hpad : ∀ c ∈ List.replicate (4 - (natDigits k).length) '0' ++ natDigits k,
      isDigitChar c = true := by
    intro c hc
    rcases List.mem_append.mp hc with h | h
    · rw [List.eq_of_mem_replicate h]; decide
    · exact natDigits_digits k c h
  have hne : (List.replicate (4 - (natDigits k).length) '0' ++ natDigits k) ≠ [] := by
    intro h
    exact natDigits_ne_nil k (List.append_eq_nil.mp h).2
  have hseg : lastSegmentChars ("TCP2025-" ++ pyFormat04 (Int.ofNat k)).data =
      List.replicate (4 - (natDigits k).length) '0' ++ natDigits k := by
    rw [string_data_append, pyFormat04_ofNat_data]
    unfold lastSegmentChars
    rw [List.reverse_append]
    have hrev : ("TCP2025-" : String).data.reverse =
        '-' :: ('5' :: '2' :: '0' :: '2' :: 'P' :: 'C' :: 'T' :: []) := rfl
    rw [hrev,
      takeWhile_append_all _ _ _
        (fun c hc => isDigitChar_bne_dash c (hpad c (List.mem_reverse.mp hc)))]
    simp [List.takeWhile_cons]
  rw [pyInt_lastSegment_eq, hseg, pyIntChars_all_digits _ hne hpad,
    digitsVal_replicate_zero_append, digitsVal_natDigits]

/-! ### Allocator-level lemmas -/

theorem tcp_append_ne_empty (t : String) : "TCP2025-" ++ t ≠ "" := by
  intro h
  have h2 := congrArg String.data h
  rw [string_data_append] at h2
  have h3 : ("TCP2025-" : String).data = ['T', 'C', 'P', '2', '0', '2', '5', '-'] := rfl
  have h4 : ("" : String).data = [] := rfl
  rw [h3, h4] at h2
  simp at h2

theorem newRegistrationNumber_ne_empty (db : List Registration) :
    newRegistrationNumber db ≠ "" :=
  tcp_append_ne_empty (pyFormat04 (nextNum db))

theorem nextNum_ge_one (db : List Registration) : 1 ≤ nextNum db := by
  unfold nextNum
  split
  · split
    · rename_i r hr
      split
      · rename_i k hk
        have h0 : 0 ≤ k := by
          rw [pyInt_lastSegment_eq] at hk
          exact pyIntChars_nonneg_of_no_dash _ (lastSegmentChars_no_dash _) k hk
        omega
      · omega
    · omega
  · omega

theorem createMany_succ_eq (n : Nat) :
    createMany (n + 1) =
      { registration_number := newRegistrationNumber (createMany n), created_at := n + 1 }
        :: createMany n := rfl

theorem nextNum_cons_parsed (r : Registration) (rest : List Registration) (k : Int)
    (hne : r.registration_number ≠ "")
    (hk : pyInt (lastSegment r.registration_number) = some k) :
    nextNum (r :: rest) = k + 1 := by
  unfold nextNum firstByCreatedDesc
  simp only [List.head?_cons]
  rw [if_pos hne, hk]

theorem nextNum_createMany (n : Nat) : nextNum (createMany n) = Int.ofNat n + 1 := by
  induction n with
  | zero => decide
  | succ n ih =>
    rw [createMany_succ_eq]
    have hsucc : Int.ofNat n + 1 = Int.ofNat (n + 1) := rfl
    have hnum : newRegistrationNumber (createMany n) =
        "TCP2025-" ++ pyFormat04 (Int.ofNat (n + 1)) := by
      unfold newRegistrationNumber
      rw [ih, hsucc]
    rw [hnum]
    rw [nextNum_cons_parsed
      { registration_number := "TCP2025-" ++ pyFormat04 (Int.ofNat (n + 1)), created_at := n + 1 }
      (createMany n) (Int.ofNat (n + 1)) (tcp_append_ne_empty _)
      (pyInt_lastSegment_roundtrip (n + 1))]

theorem createMany_eq (n : Nat) :
    createMany n = ((List.range n).map (fun i =>
      ({ registration_number := "TCP2025-" ++ pyFormat04 (Int.ofNat (i + 1)),
         created_at := i + 1 } : Registration))).reverse := by
  induction n with
  | zero => rfl
  | succ n ih =>
    rw [createMany_succ_eq, List.range_succ, List.map_append, List.reverse_append]
    simp only [List.map_cons, List.map_nil, List.reverse_cons, List.reverse_nil,
      List.nil_append, List.cons_append]
    rw [← ih]
    have hsucc : Int.ofNat n + 1 = Int.ofNat (n + 1) := rfl
    have hnum : newRegistrationNumber (createMany n) =
        "TCP2025-" ++ pyFormat04 (Int.ofNat (n + 1)) := by
      unfold newRegistrationNumber
      rw [nextNum_createMany, hsucc]
    rw [hnum]

/-! ### The claims -/

/-- C1: for every sequence of N registration creations performed strictly
sequentially from an empty record set, the allocator assigns identifiers whose
numeric suffixes are exactly 1, 2, ..., N in creation order, with no gaps and
no repeats; with no existing records the first allocation yields suffix 1,
identifier `TCP2025-0001`. -/
theorem C1_sequential_suffixes (n : Nat) :
    (createMany n).reverse.map (fun r => numericSuffix r)
        = (List.range n).map (fun i => some (Int.ofNat (i + 1))) ∧
    newRegistrationNumber [] = "TCP2025-0001" := by
  refine ⟨?_, by decide⟩
  rw [createMany_eq, List.reverse_reverse, List.map_map]
  apply List.map_congr_left
  intro i hi
  simp only [Function.comp_apply]
  exact pyInt_lastSegment_roundtrip (i + 1)

/-- C2 counterexample: the claim says the read step fetches the most recently
created record that has a NON-EMPTY identifier, skipping newer records with an
empty identifier, and that whenever some well-formed identifier exists the
next suffix is computed from it. The code's query
`Registration.objects.order_by("-created_at").first()` has no filter: on a
record set whose newest record has an empty identifier and whose older record
holds `TCP2025-0005`, the code fetches the empty-identifier record and falls
back to suffix 1 instead of computing 6 from the older record. -/
theorem C2_counterexample :
    firstByCreatedDesc [⟨"", 2⟩, ⟨"TCP2025-0005", 1⟩] = some ⟨"", 2⟩ ∧
    specLatestWithIdentifier [⟨"", 2⟩, ⟨"TCP2025-0005", 1⟩] = some ⟨"TCP2025-0005", 1⟩ ∧
    firstByCreatedDesc [⟨"", 2⟩, ⟨"TCP2025-0005", 1⟩]
      ≠ specLatestWithIdentifier [⟨"", 2⟩, ⟨"TCP2025-0005", 1⟩] ∧
    nextNum [⟨"", 2⟩, ⟨"TCP2025-0005", 1⟩] = 1 ∧
    newRegistrationNumber [⟨"", 2⟩, ⟨"TCP2025-0005", 1⟩] = "TCP2025-0001" := by
  decide

/-- C2 (amended): the allocator's read step fetches the most recently created
record regardless of its identifier. If no record exists, or the fetched
record's identifier is empty, the next suffix is 1 — even when older records
hold well-formed identifiers; when the fetched record's identifier is
non-empty and parses, the next suffix is its parsed value plus 1. -/
theorem C2_amended :
    nextNum [] = 1 ∧
    (∀ (r : Registration) (rest : List Registration),
        r.registration_number = "" → nextNum (r :: rest) = 1) ∧
    (∀ (r : Registration) (rest : List Registration) (k : Int),
        r.registration_number ≠ "" →
        pyInt (lastSegment r.registration_number) = some k →
        nextNum (r :: rest) = k + 1) := by
  refine ⟨rfl, ?_, ?_⟩
  · intro r rest h
    unfold nextNum firstByCreatedDesc
    simp only [List.head?_cons]
    rw [if_neg (fun hc => hc h)]
  · intro r rest k hne hk
    exact nextNum_cons_parsed r rest k hne hk

theorem C2_amended_witness :
    nextNum [⟨"", 7⟩, ⟨"TCP2025-0005", 6⟩] = 1 :=
  C2_amended.2.1 ⟨"", 7⟩ [⟨"TCP2025-0005", 6⟩] rfl

/-- C3 counterexample: the claim quantifies over record sets whose most recent
IDENTIFIER-BEARING record is well-formed. On a record set whose newest record
has an empty identifier while the most recent identifier-bearing record holds
the well-formed `TCP2025-0041`, the allocator does not compute 41 + 1 = 42
from that record: it reads the newest (empty) record and falls back to
`TCP2025-0001`. -/
theorem C3_counterexample :
    specLatestWithIdentifier [⟨"", 3⟩, ⟨"TCP2025-0041", 2⟩] = some ⟨"TCP2025-0041", 2⟩ ∧
    pyInt (lastSegment ("TCP2025-0041")) = some 41 ∧
    newRegistrationNumber [⟨"", 3⟩, ⟨"TCP2025-0041", 2⟩] = "TCP2025-0001" ∧
    newRegistrationNumber [⟨"", 3⟩, ⟨"TCP2025-0041", 2⟩] ≠ "TCP2025-0042" := by
  decide

/-- C3 (amended): for every record set whose most recent record has a
non-empty identifier whose trailing segment parses, the allocator computes the
next suffix by splitting that identifier on its last `'-'`, converting the
trailing segment to an integer, and adding 1; given latest existing identifier
`TCP2025-0007` it returns `TCP2025-0008`. -/
theorem C3_parse_and_increment :
    (∀ (r : Registration) (rest : List Registration) (k : Int),
        r.registration_number ≠ "" →
        pyInt (lastSegment r.registration_number) = some k →
        newRegistrationNumber (r :: rest) = "TCP2025-" ++ pyFormat04 (k + 1)) ∧
    newRegistrationNumber [⟨"TCP2025-0007", 1⟩] = "TCP2025-0008" := by
  refine ⟨?_, by decide⟩
  intro r rest k hne hk
  unfold newRegistrationNumber
  rw [nextNum_cons_parsed r rest k hne hk]

theorem C3_witness :
    newRegistrationNumber [⟨"TCP2025-0041", 2⟩, ⟨"", 1⟩] = "TCP2025-" ++ pyFormat04 (41 + 1) :=
  C3_parse_and_increment.1 ⟨"TCP2025-0041", 2⟩ [⟨"", 1⟩] 41 (by decide) (by decide)

/-- C4: whenever the latest existing identifier's trailing segment (after the
last `'-'`) does not parse as an integer — e.g. `TCP2025-` or `garbage` — the
allocator falls back to suffix 1; and the allocation never fails: for every
state of the record set it produces a suffix, always at least 1 (the
`try/except` absorbs the only fallible step). -/
theorem C4_malformed_fallback :
    (∀ (r : Registration) (rest : List Registration),
        r.registration_number ≠ "" →
        pyInt (lastSegment r.registration_number) = none →
        newRegistrationNumber (r :: rest) = "TCP2025-0001") ∧
    (∀ db : List Registration, 1 ≤ nextNum db) ∧
    newRegistrationNumber [⟨"TCP2025-", 1⟩] = "TCP2025-0001" ∧
    newRegistrationNumber [⟨"garbage", 1⟩] = "TCP2025-0001" := by
  refine ⟨?_, nextNum_ge_one, by decide, by decide⟩
  intro r rest hne hk
  unfold newRegistrationNumber nextNum firstByCreatedDesc
  simp only [List.head?_cons]
  rw [if_pos hne, hk]
  decide

theorem C4_witness :
    newRegistrationNumber [⟨"BAD", 3⟩] = "TCP2025-0001" :=
  C4_malformed_fallback.1 ⟨"BAD", 3⟩ [] (by decide) (by decide)

/-- C5: every computed suffix s is formatted as the prefix, `'-'`, and s
zero-padded to 4 digits, widening beyond 4 digits without truncation or
overflow for s ≥ 10000: the formatted width is `max 4 (digit count)`, the
formatted suffix parses back to exactly s, suffix 42 formats as
`TCP2025-0042`, and suffix 12345 formats as `TCP2025-12345`. -/
theorem C5_zero_padding :
    (∀ db : List Registration,
        newRegistrationNumber db = "TCP2025-" ++ pyFormat04 (nextNum db)) ∧
    (∀ s : Nat,
        (pyFormat04 (Int.ofNat s)).length = max 4 (natDigits s).length ∧
        pyInt (lastSegment ("TCP2025-" ++ pyFormat04 (Int.ofNat s))) = some (Int.ofNat s)) ∧
    "TCP2025-" ++ pyFormat04 42 = "TCP2025-0042" ∧
    "TCP2025-" ++ pyFormat04 12345 = "TCP2025-12345" := by
  refine ⟨fun db => rfl, ?_, by decide, by decide⟩
  intro s
  constructor
  · rw [string_length_data, pyFormat04_ofNat_data, List.length_append, List.length_replicate]
    omega
  · exact pyInt_lastSegment_roundtrip s

/-- C6 counterexample: the claim says identifiers are never reused even if the
record holding them is deleted, and that earlier-created records always carry
strictly smaller suffixes. Running create(1), create(2), delete(2), create(3)
from an empty table assigns `TCP2025-0002` twice: once to the record created at
time 2, and again — after that record's deletion — to the record created at
time 3, so the identifier is reused and the suffix does not strictly increase
with creation time. -/
theorem C6_counterexample :
    (runOps [Op.create 1, Op.create 2, Op.delete 2, Op.create 3]).2
      = [(1, "TCP2025-0001"), (2, "TCP2025-0002"), (3, "TCP2025-0002")] := by
  decide

/-- C6 (amended): in runs consisting solely of sequential creations (no
deletions), for any two records A, B with A created before B, A's numeric
suffix is strictly smaller than B's and their identifiers differ — so
identifiers are not reused as long as no record is deleted; the original
claim's "even if deleted" part fails (see the counterexample). -/
theorem C6_monotone_without_deletion (n : Nat) :
    ((createMany n).reverse).Pairwise (fun A B =>
      A.created_at < B.created_at ∧
      (∃ x y : Int, numericSuffix A = some x ∧ numericSuffix B = some y ∧ x < y) ∧
      A.registration_number ≠ B.registration_number) := by
  rw [createMany_eq, List.reverse_reverse, List.pairwise_map]
  refine (List.pairwise_lt_range n).imp ?_
  intro i j hij
  refine ⟨by show i + 1 < j + 1; omega,
    ⟨Int.ofNat (i + 1), Int.ofNat (j + 1),
      pyInt_lastSegment_roundtrip (i + 1), pyInt_lastSegment_roundtrip (j + 1),
      Int.ofNat_lt.mpr (by omega)⟩, ?_⟩
  intro he
  have hstr : ("TCP2025-" ++ pyFormat04 (Int.ofNat (i + 1))) =
      ("TCP2025-" ++ pyFormat04 (Int.ofNat (j + 1))) := he
  have h1 := pyInt_lastSegment_roundtrip (i + 1)
  rw [hstr, pyInt_lastSegment_roundtrip (j + 1)] at h1
  have h2 : Int.ofNat (j + 1) = Int.ofNat (i + 1) := Option.some.inj h1
  have h3 : j + 1 = i + 1 := Int.ofNat.inj h2
  omega

/-- C7: the allocation computation is a pure read of the current record set:
it leaves the state unchanged, and running it twice with no intervening write
yields the same candidate suffix both times. -/
theorem C7_pure_of_state (db : List Registration) :
    (allocStep db).2 = db ∧
    (allocStep (allocStep db).2).1 = (allocStep db).1 ∧
    allocStep (allocStep db).2 = allocStep db :=
  ⟨rfl, rfl, rfl⟩

/-- C8: a record whose identifier field is already non-empty is saved again
unchanged: the `if not self.registration_number` guard skips the whole
computation, so the identifier (and every other field) is left exactly as it
was; the identifier is computed at most once, at creation. -/
theorem C8_identifier_immutable (db : List Registration) (r : Registration)
    (h : r.registration_number ≠ "") :
    assignNumber db r = r ∧ save db r = r :: db := by
  have h1 : assignNumber db r = r := by
    unfold assignNumber
    rw [if_neg h]
  exact ⟨h1, by unfold save; rw [h1]⟩

theorem C8_witness :
    assignNumber [] ⟨"TCP2025-0009", 4⟩ = ⟨"TCP2025-0009", 4⟩ :=
  (C8_identifier_immutable [] ⟨"TCP2025-0009", 4⟩ (by decide)).1

/-- C9: read-then-compute allocation does not by itself guarantee uniqueness
under concurrency: in the interleaving where transactions A and B both read
before either writes, both capture the same snapshot (the same latest record
`TCP2025-0007`), compute the same next suffix, and insert duplicate
identifiers `TCP2025-0008`. -/
theorem C9_concurrent_duplicate :
    ∃ sched : List Ev,
      (runSched [⟨"TCP2025-0007", 1⟩] sched).db =
        [⟨"TCP2025-0008", 3⟩, ⟨"TCP2025-0008", 2⟩, ⟨"TCP2025-0007", 1⟩] ∧
      (runSched [⟨"TCP2025-0007", 1⟩] [Ev.readA, Ev.readB]).snapA =
        (runSched [⟨"TCP2025-0007", 1⟩] [Ev.readA, Ev.readB]).snapB :=
  ⟨[Ev.readA, Ev.readB, Ev.writeA 2, Ev.writeB 3], by decide⟩

/-- C10: every identifier the allocator generates starts with the fixed
literal prefix `TCP2025-`, whatever the latest existing identifier's prefix
is; from latest identifier `OTHER-0007` it still produces `TCP2025-0008`,
keeping only the numeric suffix of the existing record. -/
theorem C10_fixed_prefix :
    (∀ db : List Registration, ∃ suffix : String,
        newRegistrationNumber db = "TCP2025-" ++ suffix) ∧
    newRegistrationNumber [⟨"OTHER-0007", 1⟩] = "TCP2025-0008" :=
  ⟨fun db => ⟨pyFormat04 (nextNum db), rfl⟩, by decide⟩

end CustomPact
